import Mathlib

/-!
Shallow embedding of the multi-timeframe support/resistance engine of
`src/app.py` (class `MultiTimeframeSRFinder`), over exact rationals.

Python floats are modelled by `ℚ`; possibly-missing values (None / NaN) by
`Option ℚ`; pandas DataFrames by a `Frame` of named columns and rows of
optional rationals; Python exceptions by `Except PyErr`.  Lists keep the
iteration order of the source (Python dicts preserve insertion order).
`sorted` / `sorted(key=...)` are modelled with the stable
`List.insertionSort`, which matches Python sort semantics (stable,
ascending; `reverse=True` is a stable sort by the reversed comparison).

The one genuinely non-deterministic spot of the source is
`max(set(types), key=types.count)` (line 246): iteration order of a Python
set of the two kind strings depends on the interpreter's string hashing.
It is modelled by an explicit Boolean oracle `resFirst` saying whether
`Resistance` precedes `Support` in the set's iteration order; within one
interpreter run the oracle has a single fixed value.
-/

/-- The two level kinds (the strings `'Support'` / `'Resistance'`). -/
inductive LevelType
  | Support
  | Resistance
deriving DecidableEq

/-- `tolerance_mode`: the string `"current_price"` or anything else
(`"level_price"`); the source only ever tests equality with
`"current_price"`. -/
inductive ToleranceMode
  | currentPrice
  | levelPrice
deriving DecidableEq

/-- `grouping_method`: the source tests equality with `"conservative"`,
anything else selects the aggressive scan. -/
inductive GroupingMethod
  | conservative
  | aggressive
deriving DecidableEq

/-- The scalar configuration fields stored on `self` by
`MultiTimeframeSRFinder.__init__` (lines 22-26) plus `base_tolerance`
(line 75).  `tolerancePercentage` is the value already divided by 100, as
stored by line 23; `baseTolerance` is `current_price * tolerance_percentage`. -/
structure SRParams where
  minTouches : Int
  tolerancePercentage : ℚ
  groupingMethod : GroupingMethod
  toleranceMode : ToleranceMode
  baseTolerance : ℚ
deriving DecidableEq

/-- Builds the `SRParams` exactly as `__init__` and `prepare_data` do, from
the raw constructor arguments and the current price read from the data:
line 23 divides the percentage by 100, line 75 sets
`base_tolerance = current_price * tolerance_percentage`. -/
def finderParams (minTouches : Int) (tolerancePercentageRaw : ℚ)
    (groupingMethod : GroupingMethod) (toleranceMode : ToleranceMode)
    (currentPrice : ℚ) : SRParams :=
  { minTouches := minTouches
    tolerancePercentage := tolerancePercentageRaw / 100
    groupingMethod := groupingMethod
    toleranceMode := toleranceMode
    baseTolerance := currentPrice * (tolerancePercentageRaw / 100) }

/-- `get_tolerance_for_price` (lines 83-88). -/
def getToleranceForPrice (P : SRParams) (price : ℚ) : ℚ :=
  if P.toleranceMode = ToleranceMode.currentPrice then P.baseTolerance
  else price * P.tolerancePercentage

/-- `min(abs(price - group_price) for group_price in current_group)`
(line 111); the `[]` case never occurs, the current group is nonempty. -/
def minAbsDist (p : ℚ) : List ℚ → ℚ
  | [] => 0
  | [g] => |p - g|
  | g :: g2 :: gs => min |p - g| (minAbsDist p (g2 :: gs))

/-- `sum(group) / len(group)`: the running group average / centroid. -/
def listMean (l : List ℚ) : ℚ := l.sum / l.length

/-- The tolerance computed by the conservative scan for the current group
(lines 104-109): group-average based in `level_price` mode, the fixed
`base_tolerance` otherwise. -/
def consTol (P : SRParams) (cur : List ℚ) : ℚ :=
  if P.toleranceMode = ToleranceMode.levelPrice then
    getToleranceForPrice P (listMean cur)
  else P.baseTolerance

/-- The tolerance computed by the aggressive scan for the current group
center (lines 143-148). -/
def aggrTol (P : SRParams) (cur : List ℚ) : ℚ :=
  if P.toleranceMode = ToleranceMode.levelPrice then
    getToleranceForPrice P (listMean cur)
  else P.baseTolerance

/-- The left-to-right grouping loop of `group_prices_conservative`
(lines 100-121): accept the next price when its minimum distance to the
current group is within tolerance, otherwise close the group (the
`len(current_group) >= 1` test of lines 116 and 120 is always true). -/
def consScan (P : SRParams) (gs : List (List ℚ)) (cur : List ℚ) :
    List ℚ → List (List ℚ)
  | [] => gs ++ [cur]
  | p :: rest =>
    if minAbsDist p cur ≤ consTol P cur then consScan P gs (cur ++ [p]) rest
    else consScan P (gs ++ [cur]) [p] rest

/-- The grouping loop of `group_prices_aggressive` (lines 139-158): accept
the next price when its distance to the running centroid is within
tolerance. -/
def aggrScan (P : SRParams) (gs : List (List ℚ)) (cur : List ℚ) :
    List ℚ → List (List ℚ)
  | [] => gs ++ [cur]
  | p :: rest =>
    if |p - listMean cur| ≤ aggrTol P cur then aggrScan P gs (cur ++ [p]) rest
    else aggrScan P (gs ++ [cur]) [p] rest

/-- `np.median` of a nonempty list (line 172): sort, take the middle
element for odd length, the mean of the two middle elements for even
length.  The default 0 of `getD` is never read for a nonempty group. -/
def listMedian (l : List ℚ) : ℚ :=
  let s := List.insertionSort (· ≤ ·) l
  if s.length % 2 = 1 then s.getD (s.length / 2) 0
  else (s.getD (s.length / 2 - 1) 0 + s.getD (s.length / 2) 0) / 2

/-- Python `max` of a nonempty list (used at line 186-188). -/
def listMax : List ℚ → ℚ
  | [] => 0
  | x :: xs => xs.foldl max x

/-- Python `min` of a nonempty list. -/
def listMin : List ℚ → ℚ
  | [] => 0
  | x :: xs => xs.foldl min x

/-- A raw per-timeframe level as built by `convert_groups_to_levels`
(lines 178-189).  The presentation-only string field `price_range` is not
modelled; every other field of the source dict is. -/
structure RawLevel where
  level : ℚ
  type : LevelType
  touches : Nat
  timeframe : String
  weight : Nat
  weightedTouches : Nat
  originalPrices : List ℚ
  toleranceUsed : ℚ
  priceSpread : ℚ
deriving DecidableEq

/-- One level dict of `convert_groups_to_levels` (lines 170-188): median
price for groups of three or more, arithmetic mean for smaller groups. -/
def mkRawLevel (P : SRParams) (lt : LevelType) (tf : String) (w : Nat)
    (g : List ℚ) : RawLevel :=
  let lp := if 3 ≤ g.length then listMedian g else listMean g
  { level := lp
    type := lt
    touches := g.length
    timeframe := tf
    weight := w
    weightedTouches := g.length * w
    originalPrices := g
    toleranceUsed := getToleranceForPrice P lp
    priceSpread := if 1 < g.length then listMax g - listMin g else 0 }

/-- `convert_groups_to_levels` (lines 166-191): one level per group with
at least one member (the scan only ever produces nonempty groups). -/
def convertGroupsToLevels (P : SRParams) (groups : List (List ℚ))
    (lt : LevelType) (tf : String) (w : Nat) : List RawLevel :=
  (groups.filter fun g => 1 ≤ g.length).map (mkRawLevel P lt tf w)

/-- `group_prices_conservative` (lines 90-127): drop missing values, sort
ascending, run the conservative scan seeded with the first price, convert
the groups to levels.  (`None` / NaN entries are `none`; lines 92 and
97-98 return `[]` for an empty input or an all-missing input.) -/
def groupPricesConservative (P : SRParams) (prices : List (Option ℚ))
    (lt : LevelType) (tf : String) (w : Nat) : List RawLevel :=
  match prices with
  | [] => []
  | _ =>
    match List.insertionSort (· ≤ ·) (prices.filterMap id) with
    | [] => []
    | x :: rest => convertGroupsToLevels P (consScan P [] [x] rest) lt tf w

/-- `group_prices_aggressive` (lines 129-164). -/
def groupPricesAggressive (P : SRParams) (prices : List (Option ℚ))
    (lt : LevelType) (tf : String) (w : Nat) : List RawLevel :=
  match prices with
  | [] => []
  | _ =>
    match List.insertionSort (· ≤ ·) (prices.filterMap id) with
    | [] => []
    | x :: rest => convertGroupsToLevels P (aggrScan P [] [x] rest) lt tf w

/-- The strategy dispatch of `find_levels_for_timeframe` (lines 213-218):
`"conservative"` selects the conservative scan, anything else the
aggressive one. -/
def groupPricesFor (P : SRParams) (prices : List (Option ℚ))
    (lt : LevelType) (tf : String) (w : Nat) : List RawLevel :=
  if P.groupingMethod = GroupingMethod.conservative then
    groupPricesConservative P prices lt tf w
  else groupPricesAggressive P prices lt tf w

/-- A final combined level as built by `combine_multi_timeframe_levels`
(lines 257-266).  The purely diagnostic `tolerance_info` dict is not
modelled; the other fields are. -/
structure CombinedLevel where
  level : ℚ
  type : LevelType
  touches : Nat
  weightedTouches : Nat
  timeframes : List String
  timeframeCount : Nat
  sourceLevels : Nat
deriving DecidableEq

/-- `sum(level['touches'] for level in group)` (line 238). -/
def totalTouchesOf (g : List RawLevel) : Nat :=
  (g.map RawLevel.touches).sum

/-- `sum(level['weighted_touches'] for level in group)` (line 239). -/
def totalWeightedOf (g : List RawLevel) : Nat :=
  (g.map RawLevel.weightedTouches).sum

/-- `sum(level['level'] * level['weighted_touches'] for level in group)`
(line 242). -/
def weightedPriceSum (g : List RawLevel) : ℚ :=
  (g.map fun l => l.level * (l.weightedTouches : ℚ)).sum

/-- Python `max(iter, key=key)`: the first element of the iteration with a
maximal key (later elements replace the best only on a strictly greater
key); `none` on an empty iteration (Python raises there, which cannot
happen for a nonempty group). -/
def pyMaxByCount (key : LevelType → Nat) : List LevelType → Option LevelType
  | [] => none
  | x :: xs => some (xs.foldl (fun best y => if key best < key y then y else best) x)

/-- The iteration order of `set(types)` for the two kind strings,
restricted to the kinds present: the Boolean oracle `resFirst` says
whether `Resistance` is iterated before `Support`. -/
def setIterKinds (resFirst : Bool) (types : List LevelType) : List LevelType :=
  (if resFirst then [LevelType.Resistance, LevelType.Support]
   else [LevelType.Support, LevelType.Resistance]).filter (· ∈ types)

/-- `max(set(types), key=types.count)` (line 246), with the set iteration
order supplied by the `resFirst` oracle.  The `Support` default is never
read for a nonempty group. -/
def finalTypeOf (resFirst : Bool) (types : List LevelType) : LevelType :=
  (pyMaxByCount (types.count) (setIterKinds resFirst types)).getD LevelType.Support

/-- `list(set(level['timeframe'] for level in group))` (line 248), modelled
with first-occurrence order; only its member set and its length
(`timeframe_count`) are ever consumed by the claims. -/
def dedupTimeframes (g : List RawLevel) : List String :=
  (g.map RawLevel.timeframe).eraseDups

/-- One entry of `strong_levels` (lines 241-266) for a retained group.
`ℚ` division is total, so the `weighted_sum / total_weighted_touches`
of line 243 needs no side condition here; the source could only divide by
zero for a group with zero total weighted touches, which the pipeline
never produces (every raw level has `touches ≥ 1` and `weight ≥ 1`). -/
def mkStrongLevel (resFirst : Bool) (g : List RawLevel) : CombinedLevel :=
  { level := weightedPriceSum g / (totalWeightedOf g : ℚ)
    type := finalTypeOf resFirst (g.map RawLevel.type)
    touches := totalTouchesOf g
    weightedTouches := totalWeightedOf g
    timeframes := dedupTimeframes g
    timeframeCount := (dedupTimeframes g).length
    sourceLevels := g.length }

/-- The scan of `group_similar_levels` (lines 280-290): the candidate
joins the current group when it is within `get_tolerance_for_price` of
its own price from any member of the group. -/
def simScan (P : SRParams) (gs : List (List RawLevel)) (cur : List RawLevel) :
    List RawLevel → List (List RawLevel)
  | [] => gs ++ [cur]
  | l :: rest =>
    if cur.any (fun g => decide (|l.level - g.level| ≤ getToleranceForPrice P l.level)) then
      simScan P gs (cur ++ [l]) rest
    else simScan P (gs ++ [cur]) [l] rest

/-- `group_similar_levels` (lines 271-291): stable sort by level price,
then the proximity scan seeded with the first level. -/
def groupSimilarLevels (P : SRParams) (allLevels : List RawLevel) :
    List (List RawLevel) :=
  match List.insertionSort (fun a b => a.level ≤ b.level) allLevels with
  | [] => []
  | a :: rest => simScan P [] [a] rest

/-- The lexicographic tuple comparison of Python on the sort key
`(timeframe_count, weighted_touches)` (line 268). -/
def rankKeyLe (a b : CombinedLevel) : Prop :=
  a.timeframeCount < b.timeframeCount ∨
    (a.timeframeCount = b.timeframeCount ∧ a.weightedTouches ≤ b.weightedTouches)

instance : DecidableRel rankKeyLe := fun a b => by
  unfold rankKeyLe; infer_instance

/-- `strong_levels.sort(key=..., reverse=True)` (line 268): a stable sort
descending by `(timeframe_count, weighted_touches)`. -/
def sortStrongLevels (ls : List CombinedLevel) : List CombinedLevel :=
  List.insertionSort (fun a b => rankKeyLe b a) ls

/-- The emission half of `combine_multi_timeframe_levels` (lines 234-269)
as a function of the collected raw levels: group by proximity, keep the
groups whose summed touches meet `min_touches`, build a combined level
from each, rank the result. -/
def combineLevels (P : SRParams) (allLevels : List RawLevel) (resFirst : Bool) :
    List CombinedLevel :=
  sortStrongLevels
    (((groupSimilarLevels P allLevels).filter
        fun g => P.minTouches ≤ (totalTouchesOf g : Int)).map
      (mkStrongLevel resFirst))

/-- The Python exceptions the embedded constructor can raise. -/
inductive PyErr
  | valueError
  | indexError
deriving DecidableEq

deriving instance DecidableEq for Except

/-- A pandas DataFrame: named columns and rows of possibly-missing
(NaN) rational entries, row-major and aligned with `cols`. -/
structure Frame where
  cols : List String
  rows : List (List (Option ℚ))
deriving DecidableEq

/-- Python `str.lower()` on ASCII column labels, modelled character-wise
so that it evaluates by kernel reduction. -/
def lowerString (s : String) : String := String.mk (s.data.map Char.toLower)

/-- Column selection `df[name]`: the entries of the first column with the
given label (`[]` when the label is absent; the callers either guarantee
presence or catch the `KeyError` and use no values). -/
def getCol (fr : Frame) (c : String) : List (Option ℚ) :=
  match fr.cols.findIdx? (fun x => x = c) with
  | some i => fr.rows.map fun r => r.getD i none
  | none => []

/-- The first renaming pass of `prepare_data` (lines 35-50): canonical
OHLCV names for the recognised lower-cased aliases, every other column
label unchanged. -/
def canonName (c : String) : String :=
  let lc := lowerString c
  if lc = "open" ∨ lc = "o" then "Open"
  else if lc = "high" ∨ lc = "h" then "High"
  else if lc = "low" ∨ lc = "l" then "Low"
  else if lc = "close" ∨ lc = "c" then "Close"
  else if lc = "volume" ∨ lc = "vol" ∨ lc = "v" then "Volume"
  else c

/-- `[col for col in required_cols if col not in df_copy.columns]`
(line 53). -/
def requiredMissing (cols : List String) : List String :=
  ["Open", "High", "Low", "Close"].filter fun c => ¬ c ∈ cols

/-- The `alt_mapping` dict of lines 55-58 in its insertion order. -/
def altPairs : List (String × String) :=
  [("open", "Open"), ("high", "High"), ("low", "Low"), ("close", "Close"),
   ("o", "Open"), ("h", "High"), ("l", "Low"), ("c", "Close")]

/-- The fallback renaming loop of lines 59-62: for each alias pair in dict
order, rename matching columns and drop the recovered name from the
missing list. -/
def altPass : List (String × String) → List String → List String →
    List String × List String
  | [], cols, missing => (cols, missing)
  | (o, n) :: ps, cols, missing =>
    if o ∈ cols ∧ n ∈ missing then
      altPass ps (cols.map fun c => if c = o then n else c) (missing.erase n)
    else altPass ps cols missing

/-- The per-frame body of `prepare_data` (lines 31-68): rename columns,
check the required OHLC columns (raising `ValueError` when some are still
missing), then `dropna` every row containing a missing entry. -/
def cleanFrame (fr : Frame) : Except PyErr Frame :=
  let cols1 := fr.cols.map canonName
  let (cols2, missing2) := altPass altPairs cols1 (requiredMissing cols1)
  if missing2 = [] then
    Except.ok { cols := cols2, rows := fr.rows.filter fun r => r.all fun o => o.isSome }
  else Except.error PyErr.valueError

/-- The `prepare_data` loop over the timeframe mapping, replacing every
entry by its cleaned copy.  The source stores the cleaned frame back into
the very dict the caller passed to the constructor (line 21 aliases it,
line 68 writes into it), so on success this list is also the state of the
caller's mapping after construction. -/
def prepareMapping : List (String × Frame) → Except PyErr (List (String × Frame))
  | [] => Except.ok []
  | (tf, fr) :: rest =>
    match cleanFrame fr with
    | Except.error e => Except.error e
    | Except.ok fr2 =>
      match prepareMapping rest with
      | Except.error e => Except.error e
      | Except.ok rest2 => Except.ok ((tf, fr2) :: rest2)

/-- The whole-finder state after `__init__` / `prepare_data`. -/
structure Finder where
  params : SRParams
  timeframeData : List (String × Frame)
  currentPrice : ℚ
deriving DecidableEq

/-- `current_price = timeframe_data[first key]['Close'].iloc[-1]`
(lines 71-72): `IndexError` on an empty mapping (`list(...)[0]`) or an
empty cleaned primary series (`.iloc[-1]`).  The `some none` case (a row
surviving `dropna` with a missing Close) cannot occur. -/
def primaryClose : List (String × Frame) → Except PyErr ℚ
  | [] => Except.error PyErr.indexError
  | (_, fr) :: _ =>
    match (getCol fr "Close").getLast? with
    | some (some v) => Except.ok v
    | _ => Except.error PyErr.indexError

/-- `MultiTimeframeSRFinder.__init__` (lines 14-27) together with
`prepare_data` (lines 29-81): store the scalar settings (no validation of
any of them), clean every frame in place, read the current price from the
primary timeframe and derive the base tolerance. -/
def mkFinder (timeframeData : List (String × Frame)) (minTouches : Int)
    (tolerancePercentageRaw : ℚ) (groupingMethod : GroupingMethod)
    (toleranceMode : ToleranceMode) : Except PyErr Finder :=
  match prepareMapping timeframeData with
  | Except.error e => Except.error e
  | Except.ok cleaned =>
    match primaryClose cleaned with
    | Except.error e => Except.error e
    | Except.ok cp =>
      Except.ok
        { params := finderParams minTouches tolerancePercentageRaw groupingMethod
            toleranceMode cp
          timeframeData := cleaned
          currentPrice := cp }

/-- The `timeframe_weights` dict `{'1D': 3, '4H': 2, '1H': 1}` (line 26)
with `.get(timeframe, 1)` (line 195). -/
def timeframeWeight (tf : String) : Nat :=
  if tf = "1D" then 3 else if tf = "4H" then 2 else if tf = "1H" then 1 else 1

/-- `find_levels_for_timeframe` (lines 193-224): an empty frame or a frame
missing the High/Low columns (the caught `KeyError`) or one with no price
data contributes no levels; otherwise resistance levels from the highs and
support levels from the lows, concatenated. -/
def findLevelsForTimeframe (P : SRParams) (tf : String) (fr : Frame) :
    List RawLevel :=
  let w := timeframeWeight tf
  if fr.rows = [] then []
  else if ¬ ("High" ∈ fr.cols ∧ "Low" ∈ fr.cols) then []
  else
    let highPrices := (getCol fr "High").filterMap id
    let lowPrices := (getCol fr "Low").filterMap id
    if highPrices = [] ∨ lowPrices = [] then []
    else
      groupPricesFor P (highPrices.map some) LevelType.Resistance tf w ++
        groupPricesFor P (lowPrices.map some) LevelType.Support tf w

/-- The collection loop of `combine_multi_timeframe_levels`
(lines 228-232). -/
def collectAllLevels (F : Finder) : List RawLevel :=
  (F.timeframeData.map fun p => findLevelsForTimeframe F.params p.1 p.2).flatten

/-- `combine_multi_timeframe_levels` (lines 226-269). -/
def combineMultiTimeframeLevels (F : Finder) (resFirst : Bool) :
    List CombinedLevel :=
  combineLevels F.params (collectAllLevels F) resFirst

/-- The in-range observations collected by `analyze_missing_levels`
(lines 302-310): for every timeframe in mapping order, for `High` then
`Low`, the non-missing column values lying in `[start, end]` (pandas
`between` is inclusive and `NaN` compares `False`), tagged with the
timeframe and the column name. -/
def pricesInRangeOf (data : List (String × Frame)) (s e : ℚ) :
    List (String × String × ℚ) :=
  (data.map fun p =>
    (["High", "Low"].map fun pt =>
      ((getCol p.2 pt).filterMap fun o =>
        match o with
        | some v => if s ≤ v ∧ v ≤ e then some v else none
        | none => none).map fun v => (p.1, pt, v)).flatten).flatten

/-- `sorted(list(set(prices)))` (line 315): the distinct observed values in
ascending order. -/
def uniqueInRange (data : List (String × Frame)) (s e : ℚ) : List ℚ :=
  List.insertionSort (· ≤ ·) ((pricesInRangeOf data s e).map fun t => t.2.2).eraseDups

/-- `min(abs(u[i+1]-u[i]))` over consecutive entries (lines 318-319); the
guard value 0 is never read, the caller checks for length at least 2. -/
def minConsecGap : List ℚ → ℚ
  | [] => 0
  | [_] => 0
  | a :: b :: rest =>
    match rest with
    | [] => |b - a|
    | _ => min |b - a| (minConsecGap (b :: rest))

/-- The analysis record of `analyze_missing_levels` (lines 295-326); the
presentation-only `range` string is not modelled. -/
structure RangeAnalysis where
  currentTolerance : ℚ
  pricesInRange : List (String × String × ℚ)
  suggestedTolerancePercentage : Option ℚ
  minDistance : Option ℚ
  uniquePriceCount : Option Nat
deriving DecidableEq

/-- `analyze_missing_levels` (lines 293-327): when at least two distinct
observations fall in the range, suggest
`(min consecutive gap / midpoint of range) * 100`; otherwise the optional
fields stay absent. -/
def analyzeMissingLevels (F : Finder) (s e : ℚ) : RangeAnalysis :=
  let obs := pricesInRangeOf F.timeframeData s e
  let uniq := uniqueInRange F.timeframeData s e
  if obs ≠ [] ∧ 1 < uniq.length then
    let md := minConsecGap uniq
    { currentTolerance := F.params.baseTolerance
      pricesInRange := obs
      suggestedTolerancePercentage := some (md / ((s + e) / 2) * 100)
      minDistance := some md
      uniquePriceCount := some uniq.length }
  else
    { currentTolerance := F.params.baseTolerance
      pricesInRange := obs
      suggestedTolerancePercentage := none
      minDistance := none
      uniquePriceCount := none }

/-- The admission test of one conservative scan step as a Boolean
predicate of the current group and the candidate price (line 113). -/
def consAccept (P : SRParams) (cur : List ℚ) (p : ℚ) : Bool :=
  decide (minAbsDist p cur ≤ consTol P cur)

/-- The admission test of one aggressive scan step (line 150). -/
def aggrAccept (P : SRParams) (cur : List ℚ) (p : ℚ) : Bool :=
  decide (|p - listMean cur| ≤ aggrTol P cur)

/-- The common shape of both grouping scans, abstracted over the admission
test; `consScan` and `aggrScan` are instances (proved below). -/
def gScan (accept : List ℚ → ℚ → Bool) (gs : List (List ℚ)) (cur : List ℚ) :
    List ℚ → List (List ℚ)
  | [] => gs ++ [cur]
  | p :: rest =>
    if accept cur p then gScan accept gs (cur ++ [p]) rest
    else gScan accept (gs ++ [cur]) [p] rest

/-- Modelled from the spec: the `VolatilityBased` tolerance mode of
spec §4.1 does not exist in `src/app.py` (its `tolerance_mode` knows only
`"current_price"` and `"level_price"`, lines 83-88, and no ATR is computed
anywhere in the file); per the spec it returns
`atrValue × (percentage / 100)` for every price being tested, where
`atrValue` is the caller-supplied True-Range-derived volatility measure. -/
def toleranceForVolatilityBased (atrValue percentage _price : ℚ) : ℚ :=
  atrValue * (percentage / 100)

/-- Concrete parameters for the scenario-3 style witness: fixed
(current-price) tolerance 1, admission threshold 2 touches. -/
def c1P : SRParams :=
  { minTouches := 2, tolerancePercentage := 1/100,
    groupingMethod := GroupingMethod.conservative,
    toleranceMode := ToleranceMode.currentPrice, baseTolerance := 1 }

/-- Scenario 3: the `1D` raw level at 150.00 with touches = 2 and
weight 3. -/
def c1Lvl1D : RawLevel :=
  { level := 150, type := LevelType.Resistance, touches := 2,
    timeframe := "1D", weight := 3, weightedTouches := 6,
    originalPrices := [150, 150], toleranceUsed := 1, priceSpread := 0 }

/-- Scenario 3: the `1H` raw level at 150.01 with touches = 2 and
weight 1. -/
def c1Lvl1H : RawLevel :=
  { level := 15001/100, type := LevelType.Resistance, touches := 2,
    timeframe := "1H", weight := 1, weightedTouches := 2,
    originalPrices := [15001/100, 15001/100], toleranceUsed := 1,
    priceSpread := 0 }

/-- The combined level the engine emits for scenario 3:
price (150·6 + 150.01·2)/8 = 150.0025 = 60001/400, 4 touches,
8 weighted touches, 2 timeframes. -/
def c1Out : CombinedLevel :=
  { level := 60001/400, type := LevelType.Resistance, touches := 4,
    weightedTouches := 8, timeframes := ["1D", "1H"], timeframeCount := 2,
    sourceLevels := 2 }

/-- Concrete parameters for the threshold-admission witness. -/
def c2P : SRParams :=
  { minTouches := 3, tolerancePercentage := 1/100,
    groupingMethod := GroupingMethod.conservative,
    toleranceMode := ToleranceMode.currentPrice, baseTolerance := 1 }

/-- A single raw level with 3 touches for the threshold witness. -/
def c2Lvl : RawLevel :=
  { level := 10, type := LevelType.Resistance, touches := 3,
    timeframe := "4H", weight := 2, weightedTouches := 6,
    originalPrices := [10, 10, 10], toleranceUsed := 1, priceSpread := 0 }

/-- The combined level emitted for the threshold witness. -/
def c2Out : CombinedLevel :=
  { level := 10, type := LevelType.Resistance, touches := 3,
    weightedTouches := 6, timeframes := ["4H"], timeframeCount := 1,
    sourceLevels := 1 }

/-- A raw level with a single touch: with `minTouches = 2` its group is
discarded, so it is assigned to no combined level at all. -/
def c3Lvl : RawLevel :=
  { level := 100, type := LevelType.Support, touches := 1,
    timeframe := "1D", weight := 3, weightedTouches := 3,
    originalPrices := [100], toleranceUsed := 1, priceSpread := 0 }

/-- Parameters with `minTouches = 2` for the partition counterexample. -/
def c3P : SRParams :=
  { minTouches := 2, tolerancePercentage := 1/100,
    groupingMethod := GroupingMethod.conservative,
    toleranceMode := ToleranceMode.currentPrice, baseTolerance := 1 }

/-- Tie-break counterexample: a Support level met first in price-scan
order, then a Resistance level within tolerance. -/
def c5LsSupportFirst : List RawLevel :=
  [{ level := 100, type := LevelType.Support, touches := 1,
     timeframe := "1D", weight := 3, weightedTouches := 3,
     originalPrices := [100], toleranceUsed := 1, priceSpread := 0 },
   { level := 10001/100, type := LevelType.Resistance, touches := 1,
     timeframe := "1H", weight := 1, weightedTouches := 1,
     originalPrices := [10001/100], toleranceUsed := 1, priceSpread := 0 }]

/-- The same two tied kinds with the scan order reversed: now Resistance
is met first. -/
def c5LsResistanceFirst : List RawLevel :=
  [{ level := 100, type := LevelType.Resistance, touches := 1,
     timeframe := "1D", weight := 3, weightedTouches := 3,
     originalPrices := [100], toleranceUsed := 1, priceSpread := 0 },
   { level := 10001/100, type := LevelType.Support, touches := 1,
     timeframe := "1H", weight := 1, weightedTouches := 1,
     originalPrices := [10001/100], toleranceUsed := 1, priceSpread := 0 }]

/-- Parameters letting both tied levels join one group. -/
def c5P : SRParams :=
  { minTouches := 1, tolerancePercentage := 1/100,
    groupingMethod := GroupingMethod.conservative,
    toleranceMode := ToleranceMode.currentPrice, baseTolerance := 1 }

/-- A well-formed two-bar timeframe frame with canonical column names. -/
def exGoodFrame : Frame :=
  { cols := ["Open", "High", "Low", "Close"],
    rows := [[some 1, some 2, some 1, some 2],
             [some 1, some 3, some 1, some 3]] }

/-- The finder state `mkFinder` produces from `[("1D", exGoodFrame)]` with
`min_touches = 0` and `tolerance_percentage = -1`: construction succeeds,
nothing validates the configuration. -/
def c7Finder : Finder :=
  { params := finderParams 0 (-1) GroupingMethod.conservative
      ToleranceMode.currentPrice 3
    timeframeData := [("1D", exGoodFrame)]
    currentPrice := 3 }

/-- A frame whose every row has a missing value: after `dropna` its
cleaned series has zero usable observations. -/
def c8EmptyFrame : Frame :=
  { cols := ["Open", "High", "Low", "Close"],
    rows := [[some 1, some 1, some 1, none]] }

/-- A mapping whose primary (first) timeframe cleans to an empty series. -/
def c8Data : List (String × Frame) :=
  [("1D", c8EmptyFrame), ("1H", exGoodFrame)]

/-- The scenario-4 diagnostics frame: one bar with High 169.80 and
Low 149.50. -/
def c9Frame : Frame :=
  { cols := ["Open", "High", "Low", "Close"],
    rows := [[some 150, some (849/5), some (299/2), some 150]] }

/-- A finder over the scenario-4 data. -/
def c9Finder : Finder :=
  { params := finderParams 2 (1/100) GroupingMethod.conservative
      ToleranceMode.currentPrice 150
    timeframeData := [("1D", c9Frame)]
    currentPrice := 150 }

/-- A caller-side frame with lower-case column names and one row holding a
missing value: preparation renames its columns and drops the bad row. -/
def c10DirtyFrame : Frame :=
  { cols := ["open", "high", "low", "close"],
    rows := [[some 1, some 2, some 1, some 2],
             [some 1, none, some 1, some 2]] }

/-- The caller's mapping before construction. -/
def c10Data : List (String × Frame) :=
  [("1D", c10DirtyFrame)]

/-- What the caller's mapping holds after construction: the cleaned copy,
not the original frame. -/
def c10CleanFrame : Frame :=
  { cols := ["Open", "High", "Low", "Close"],
    rows := [[some 1, some 2, some 1, some 2]] }

/-- The finder built from `c10Data`. -/
def c10Finder : Finder :=
  { params := finderParams 2 1 GroupingMethod.conservative
      ToleranceMode.currentPrice 2
    timeframeData := [("1D", c10CleanFrame)]
    currentPrice := 2 }
/-- A frame already cleaned down to zero rows, for the soft-empty-series
witness. -/
def c8CleanedEmptyFrame : Frame :=
  { cols := ["Open", "High", "Low", "Close"], rows := [] }

theorem mem_combineLevels {P : SRParams} {ls : List RawLevel} {rf : Bool}
    {c : CombinedLevel} :
    c ∈ combineLevels P ls rf ↔
      ∃ g, g ∈ groupSimilarLevels P ls ∧ P.minTouches ≤ (totalTouchesOf g : Int) ∧
        c = mkStrongLevel rf g := by
  unfold combineLevels sortStrongLevels
  rw [List.Perm.mem_iff (List.perm_insertionSort _ _)]
  simp only [List.mem_map, List.mem_filter, decide_eq_true_eq]
  constructor
  · rintro ⟨g, ⟨hg, hmin⟩, rfl⟩
    exact ⟨g, hg, hmin, rfl⟩
  · rintro ⟨g, hg, hmin, rfl⟩
    exact ⟨g, ⟨hg, hmin⟩, rfl⟩

/-- C6: in the spec-modelled VolatilityBased tolerance mode the returned
threshold is `atrValue × (percentage / 100)`, the same value for every
price being tested (independent of price and of nominal price level). -/
theorem volatilityBased_tolerance_price_independent (atr pct v w : ℚ) :
    toleranceForVolatilityBased atr pct v = atr * (pct / 100) ∧
      toleranceForVolatilityBased atr pct v = toleranceForVolatilityBased atr pct w :=
  ⟨rfl, rfl⟩

/-- C2: no combined level is emitted with `totalTouches < minTouches`:
every member of the combination output satisfies the admission
threshold. -/
theorem combine_respects_min_touches (P : SRParams) (ls : List RawLevel)
    (rf : Bool) (c : CombinedLevel) (hc : c ∈ combineLevels P ls rf) :
    P.minTouches ≤ (c.touches : Int) := by
  rcases mem_combineLevels.mp hc with ⟨g, -, hmin, rfl⟩
  simpa [mkStrongLevel] using hmin

unseal Rat.add Rat.mul Rat.inv Rat.sub Rat.ofScientific in
theorem combine_respects_min_touches_witness :
    c2Out ∈ combineLevels c2P [c2Lvl] true ∧
      c2P.minTouches ≤ (c2Out.touches : Int) :=
  ⟨by decide, combine_respects_min_touches c2P [c2Lvl] true c2Out (by decide)⟩

/-- C1: every emitted combined level comes from a retained group, and its
price is the weighted average
`Σ(member.price × member.weightedTouches) / Σ(member.weightedTouches)`,
its touches the summed touch count and its timeframe count the number of
distinct member timeframes. -/
theorem combined_price_is_weighted_average (P : SRParams) (ls : List RawLevel)
    (rf : Bool) (c : CombinedLevel) (hc : c ∈ combineLevels P ls rf) :
    ∃ g, g ∈ groupSimilarLevels P ls ∧ P.minTouches ≤ (totalTouchesOf g : Int) ∧
      c.level = weightedPriceSum g / (totalWeightedOf g : ℚ) ∧
      c.touches = totalTouchesOf g ∧ c.weightedTouches = totalWeightedOf g ∧
      c.timeframeCount = (dedupTimeframes g).length := by
  rcases mem_combineLevels.mp hc with ⟨g, hg, hmin, rfl⟩
  exact ⟨g, hg, hmin, rfl, rfl, rfl, rfl⟩

unseal Rat.add Rat.mul Rat.inv Rat.sub Rat.ofScientific in
theorem combined_price_is_weighted_average_witness :
    combineLevels c1P [c1Lvl1D, c1Lvl1H] true = [c1Out] ∧
      c1Out.level = 60001/400 ∧ c1Out.touches = 4 ∧ c1Out.timeframeCount = 2 ∧
      ∃ g, g ∈ groupSimilarLevels c1P [c1Lvl1D, c1Lvl1H] ∧
        c1P.minTouches ≤ (totalTouchesOf g : Int) ∧
        c1Out.level = weightedPriceSum g / (totalWeightedOf g : ℚ) ∧
        c1Out.touches = totalTouchesOf g ∧
        c1Out.weightedTouches = totalWeightedOf g ∧
        c1Out.timeframeCount = (dedupTimeframes g).length :=
  ⟨by decide, by decide, rfl, rfl,
    combined_price_is_weighted_average c1P [c1Lvl1D, c1Lvl1H] true c1Out (by decide)⟩

theorem simScan_flatten (P : SRParams) :
    ∀ (rest : List RawLevel) (gs : List (List RawLevel)) (cur : List RawLevel),
      (simScan P gs cur rest).flatten = gs.flatten ++ cur ++ rest := by
  intro rest
  induction rest with
  | nil => intro gs cur; simp [simScan]
  | cons l rest ih =>
    intro gs cur
    by_cases h :
        cur.any (fun g => decide (|l.level - g.level| ≤ getToleranceForPrice P l.level)) = true
    · simp [simScan, h, ih, List.append_assoc]
    · simp [simScan, h, ih, List.append_assoc]

theorem groupSimilar_flatten_perm (P : SRParams) (ls : List RawLevel) :
    ((groupSimilarLevels P ls).flatten).Perm ls := by
  unfold groupSimilarLevels
  have hp := List.perm_insertionSort (fun a b => a.level ≤ b.level) ls
  cases h : List.insertionSort (fun a b => a.level ≤ b.level) ls with
  | nil =>
    rw [h] at hp
    have : ls = [] := hp.symm.eq_nil
    simp [this]
  | cons a rest =>
    rw [h] at hp
    rw [simScan_flatten]
    simpa using hp

/-- C3 (amended): the grouping step partitions the input raw levels — the
concatenation of the scan's groups is a permutation of the input, so every
raw level lands in exactly one group — and every emitted combined level
draws its `totalTouches` as the sum of `touchCount` over exactly its
group's members; but only groups meeting the threshold are emitted, so raw
levels of discarded groups belong to no combined level. -/
theorem grouping_partitions_raw_levels (P : SRParams) (ls : List RawLevel)
    (rf : Bool) :
    ((groupSimilarLevels P ls).flatten).Perm ls ∧
      ∀ c ∈ combineLevels P ls rf, ∃ g, g ∈ groupSimilarLevels P ls ∧
        P.minTouches ≤ (totalTouchesOf g : Int) ∧ c.touches = totalTouchesOf g := by
  refine ⟨groupSimilar_flatten_perm P ls, fun c hc => ?_⟩
  rcases mem_combineLevels.mp hc with ⟨g, hg, hmin, rfl⟩
  exact ⟨g, hg, hmin, rfl⟩

unseal Rat.add Rat.mul Rat.inv Rat.sub Rat.ofScientific in
theorem grouping_partitions_raw_levels_witness :
    ((groupSimilarLevels c2P [c2Lvl]).flatten).Perm [c2Lvl] ∧
      (∃ g, g ∈ groupSimilarLevels c2P [c2Lvl] ∧
        c2P.minTouches ≤ (totalTouchesOf g : Int) ∧
        c2Out.touches = totalTouchesOf g) :=
  ⟨(grouping_partitions_raw_levels c2P [c2Lvl] true).1,
   (grouping_partitions_raw_levels c2P [c2Lvl] true).2 c2Out (by decide)⟩

unseal Rat.add Rat.mul Rat.inv Rat.sub Rat.ofScientific in
/-- C3 (counterexample): a raw level with one touch under `minTouches = 2`
is grouped, but its group is discarded, so the combination output is empty
and the level is assigned to no combined level at all — the assignment of
raw levels to combined levels is not a partition of the input. -/
theorem raw_level_unassigned_counterexample :
    combineLevels c3P [c3Lvl] true = [] ∧ ([c3Lvl] : List RawLevel) ≠ [] := by
  decide

theorem finalTypeOf_res (rf : Bool) (ts : List LevelType)
    (h : ts.count LevelType.Support < ts.count LevelType.Resistance) :
    finalTypeOf rf ts = LevelType.Resistance := by
  have hR : LevelType.Resistance ∈ ts :=
    List.count_pos_iff.mp (Nat.lt_of_le_of_lt (Nat.zero_le _) h)
  by_cases hS : LevelType.Support ∈ ts
  · cases rf
    · simp [finalTypeOf, setIterKinds, pyMaxByCount, hR, hS, if_pos h]
    · simp [finalTypeOf, setIterKinds, pyMaxByCount, hR, hS, if_neg (Nat.lt_asymm h)]
  · cases rf <;> simp [finalTypeOf, setIterKinds, pyMaxByCount, hR, hS]

theorem finalTypeOf_sup (rf : Bool) (ts : List LevelType)
    (h : ts.count LevelType.Resistance < ts.count LevelType.Support) :
    finalTypeOf rf ts = LevelType.Support := by
  have hS : LevelType.Support ∈ ts :=
    List.count_pos_iff.mp (Nat.lt_of_le_of_lt (Nat.zero_le _) h)
  by_cases hR : LevelType.Resistance ∈ ts
  · cases rf
    · simp [finalTypeOf, setIterKinds, pyMaxByCount, hR, hS, if_neg (Nat.lt_asymm h)]
    · simp [finalTypeOf, setIterKinds, pyMaxByCount, hR, hS, if_pos h]
  · cases rf <;> simp [finalTypeOf, setIterKinds, pyMaxByCount, hR, hS]

/-- C5 (amended): every emitted combined level's kind is
`max(set(kinds), key=count)` under the set-iteration oracle; a strict
majority of member kinds always wins, whichever iteration order the
interpreter's set has; only the tied case is decided by the set order, not
by the first-encountered member in scan order. -/
theorem combined_kind_majority (rf : Bool) (P : SRParams) (ls : List RawLevel)
    (c : CombinedLevel) (hc : c ∈ combineLevels P ls rf) :
    ∃ g, g ∈ groupSimilarLevels P ls ∧
      c.type = finalTypeOf rf (g.map RawLevel.type) ∧
      ((g.map RawLevel.type).count LevelType.Support <
          (g.map RawLevel.type).count LevelType.Resistance →
        c.type = LevelType.Resistance) ∧
      ((g.map RawLevel.type).count LevelType.Resistance <
          (g.map RawLevel.type).count LevelType.Support →
        c.type = LevelType.Support) := by
  rcases mem_combineLevels.mp hc with ⟨g, hg, hmin, rfl⟩
  exact ⟨g, hg, rfl, fun h => finalTypeOf_res rf _ h, fun h => finalTypeOf_sup rf _ h⟩

unseal Rat.add Rat.mul Rat.inv Rat.sub Rat.ofScientific in
theorem combined_kind_majority_witness :
    ∃ g, g ∈ groupSimilarLevels c1P [c1Lvl1D, c1Lvl1H] ∧
      c1Out.type = finalTypeOf true (g.map RawLevel.type) ∧
      ((g.map RawLevel.type).count LevelType.Support <
          (g.map RawLevel.type).count LevelType.Resistance →
        c1Out.type = LevelType.Resistance) ∧
      ((g.map RawLevel.type).count LevelType.Resistance <
          (g.map RawLevel.type).count LevelType.Support →
        c1Out.type = LevelType.Support) :=
  combined_kind_majority true c1P [c1Lvl1D, c1Lvl1H] c1Out (by decide)

unseal Rat.add Rat.mul Rat.inv Rat.sub Rat.ofScientific in
/-- C5 (counterexample): two tied groups that differ only in which kind is
met first in scan order.  Were ties broken by the first-encountered kind,
the Support-first input would yield `Support` and the Resistance-first
input `Resistance`; the code computes the same kind for both (the set
iteration order ignores scan order), so whichever value the set-order
oracle has, one of the two inputs violates the claimed tie-break. -/
theorem combined_kind_tie_counterexample :
    (((combineLevels c5P c5LsSupportFirst true).map CombinedLevel.type ≠
        [LevelType.Support] ∨
      (combineLevels c5P c5LsResistanceFirst true).map CombinedLevel.type ≠
        [LevelType.Resistance])) ∧
    (((combineLevels c5P c5LsSupportFirst false).map CombinedLevel.type ≠
        [LevelType.Support] ∨
      (combineLevels c5P c5LsResistanceFirst false).map CombinedLevel.type ≠
        [LevelType.Resistance])) := by
  decide

unseal Rat.add Rat.mul Rat.inv Rat.sub Rat.ofScientific in
/-- C7 (counterexample): the constructor accepts `tolerance_percentage =
-1` and `min_touches = 0` without any error and the engine then computes
levels normally — nothing fails fast with an invalid-configuration error
before clustering. -/
theorem invalid_config_accepted_counterexample :
    mkFinder [("1D", exGoodFrame)] 0 (-1) GroupingMethod.conservative
        ToleranceMode.currentPrice = Except.ok c7Finder ∧
      combineMultiTimeframeLevels c7Finder true ≠ [] := by
  decide

/-- C7 (amended): the constructor performs no configuration validation at
all — whether construction succeeds is entirely independent of
`min_touches`, `tolerance_percentage`, the grouping method and the
tolerance mode; only the shape of the data (missing required columns, an
empty mapping or an empty cleaned primary series) can make it fail. -/
theorem mkFinder_isOk_independent_of_config (data : List (String × Frame))
    (mt1 mt2 : Int) (p1 p2 : ℚ) (gm1 gm2 : GroupingMethod)
    (tm1 tm2 : ToleranceMode) :
    (mkFinder data mt1 p1 gm1 tm1).isOk = (mkFinder data mt2 p2 gm2 tm2).isOk := by
  unfold mkFinder
  split
  · rfl
  · split
    · rfl
    · rfl

unseal Rat.add Rat.mul Rat.inv Rat.sub Rat.ofScientific in
/-- C8 (counterexample): when the primary (first) timeframe's series
cleans to zero usable rows, the whole construction aborts with an
`IndexError` while reading the current price — even though the same other
timeframe alone would have produced a working finder.  An empty timeframe
can therefore abort the whole computation. -/
theorem empty_primary_timeframe_aborts :
    mkFinder c8Data 2 1 GroupingMethod.conservative ToleranceMode.currentPrice =
        Except.error PyErr.indexError ∧
      (mkFinder [("1H", exGoodFrame)] 2 1 GroupingMethod.conservative
        ToleranceMode.currentPrice).isOk = true := by
  decide

/-- C8 (amended): a timeframe whose cleaned series has zero rows
contributes no levels, and — when it is not the primary timeframe, so
construction has already succeeded — the combination completes and equals
the combination over the remaining timeframes alone. -/
theorem empty_timeframe_contributes_nothing (P : SRParams) (cp : ℚ)
    (pre post : List (String × Frame)) (tf : String) (fr : Frame) (rf : Bool)
    (h : fr.rows = []) :
    combineMultiTimeframeLevels ⟨P, pre ++ (tf, fr) :: post, cp⟩ rf =
      combineMultiTimeframeLevels ⟨P, pre ++ post, cp⟩ rf := by
  unfold combineMultiTimeframeLevels collectAllLevels
  simp [findLevelsForTimeframe, h]

unseal Rat.add Rat.mul Rat.inv Rat.sub Rat.ofScientific in
theorem empty_timeframe_contributes_nothing_witness :
    c8CleanedEmptyFrame.rows = [] ∧
      combineMultiTimeframeLevels
          ⟨c1P, [("1H", exGoodFrame), ("4H", c8CleanedEmptyFrame)], 3⟩ true =
        combineMultiTimeframeLevels ⟨c1P, [("1H", exGoodFrame)], 3⟩ true :=
  ⟨rfl,
   empty_timeframe_contributes_nothing c1P 3 [("1H", exGoodFrame)] [] "4H"
     c8CleanedEmptyFrame true rfl⟩

/-- C9: the range diagnostics suggest a tolerance percentage exactly when
at least two distinct high/low observations fall inside `[s, e]`, and the
suggestion equals
`(minimum gap between consecutive sorted distinct in-range values) /
((s + e) / 2) * 100`; with fewer than two distinct in-range values no
suggestion is produced. -/
theorem range_suggestion_formula (F : Finder) (s e : ℚ) :
    (2 ≤ (uniqueInRange F.timeframeData s e).length →
      (analyzeMissingLevels F s e).suggestedTolerancePercentage =
        some (minConsecGap (uniqueInRange F.timeframeData s e) / ((s + e) / 2) * 100)) ∧
    ((uniqueInRange F.timeframeData s e).length < 2 →
      (analyzeMissingLevels F s e).suggestedTolerancePercentage = none) := by
  constructor
  · intro h2
    have hobs : pricesInRangeOf F.timeframeData s e ≠ [] := by
      intro h0
      unfold uniqueInRange at h2
      rw [h0] at h2
      simp [List.insertionSort] at h2
    unfold analyzeMissingLevels
    rw [if_pos ⟨hobs, by omega⟩]
  · intro hlt
    unfold analyzeMissingLevels
    rw [if_neg]
    rintro ⟨-, hgt⟩
    omega

unseal Rat.add Rat.mul Rat.inv Rat.sub Rat.ofScientific in
theorem range_suggestion_formula_witness :
    2 ≤ (uniqueInRange c9Finder.timeframeData 148 170).length ∧
      (analyzeMissingLevels c9Finder 148 170).suggestedTolerancePercentage =
        some (minConsecGap (uniqueInRange c9Finder.timeframeData 148 170) /
          ((148 + 170) / 2) * 100) ∧
      (analyzeMissingLevels c9Finder 148 170).suggestedTolerancePercentage =
        some (2030/159) ∧
      |2030/159 - 1277/100| < (1 : ℚ)/200 :=
  ⟨by decide, (range_suggestion_formula c9Finder 148 170).1 (by decide),
   by decide, by decide⟩

theorem prepareMapping_forall2 :
    ∀ (data m : List (String × Frame)), prepareMapping data = Except.ok m →
      List.Forall₂ (fun p q => q.1 = p.1 ∧ cleanFrame p.2 = Except.ok q.2) data m := by
  intro data
  induction data with
  | nil =>
    intro m h
    simp only [prepareMapping, Except.ok.injEq] at h
    rw [← h]
    exact List.Forall₂.nil
  | cons p rest ih =>
    intro m h
    rcases p with ⟨tf, fr⟩
    unfold prepareMapping at h
    cases hc : cleanFrame fr with
    | error e => rw [hc] at h; simp at h
    | ok fr2 =>
      rw [hc] at h
      cases hr : prepareMapping rest with
      | error e => rw [hr] at h; simp at h
      | ok rest2 =>
        rw [hr] at h
        simp only [Except.ok.injEq] at h
        rw [← h]
        exact List.Forall₂.cons ⟨rfl, hc⟩ (ih rest2 hr)

/-- C10: construction rewrites the caller-supplied timeframe mapping entry
by entry (the source aliases the caller's dict at line 21 and stores into
it at line 68): after a successful construction the mapping the finder
holds — which is the caller's own mapping — pairs every original entry
with its cleaned copy (columns renamed, rows with missing values
dropped). -/
theorem construction_replaces_mapping_with_cleaned
    (data : List (String × Frame)) (mt : Int) (pct : ℚ) (gm : GroupingMethod)
    (tm : ToleranceMode) (F : Finder)
    (h : mkFinder data mt pct gm tm = Except.ok F) :
    List.Forall₂ (fun p q => q.1 = p.1 ∧ cleanFrame p.2 = Except.ok q.2) data
      F.timeframeData := by
  unfold mkFinder at h
  cases hm : prepareMapping data with
  | error e => rw [hm] at h; simp at h
  | ok cleaned =>
    rw [hm] at h
    dsimp only [] at h
    cases hcp : primaryClose cleaned with
    | error e => rw [hcp] at h; simp at h
    | ok cp =>
      rw [hcp] at h
      dsimp only [] at h
      simp only [Except.ok.injEq] at h
      rw [← h]
      exact prepareMapping_forall2 data cleaned hm

unseal Rat.add Rat.mul Rat.inv Rat.sub Rat.ofScientific in
theorem construction_replaces_mapping_with_cleaned_witness :
    mkFinder c10Data 2 1 GroupingMethod.conservative ToleranceMode.currentPrice =
        Except.ok c10Finder ∧
      List.Forall₂ (fun p q => q.1 = p.1 ∧ cleanFrame p.2 = Except.ok q.2)
        c10Data c10Finder.timeframeData ∧
      c10Finder.timeframeData ≠ c10Data :=
  ⟨by decide,
   construction_replaces_mapping_with_cleaned c10Data 2 1
     GroupingMethod.conservative ToleranceMode.currentPrice c10Finder (by decide),
   by decide⟩

theorem consScan_eq_gScan (P : SRParams) :
    ∀ (rest : List ℚ) (gs : List (List ℚ)) (cur : List ℚ),
      consScan P gs cur rest = gScan (consAccept P) gs cur rest := by
  intro rest
  induction rest with
  | nil => intro gs cur; rfl
  | cons p rest ih =>
    intro gs cur
    by_cases h : minAbsDist p cur ≤ consTol P cur
    · simp [consScan, gScan, consAccept, h, ih]
    · simp [consScan, gScan, consAccept, h, ih]

theorem aggrScan_eq_gScan (P : SRParams) :
    ∀ (rest : List ℚ) (gs : List (List ℚ)) (cur : List ℚ),
      aggrScan P gs cur rest = gScan (aggrAccept P) gs cur rest := by
  intro rest
  induction rest with
  | nil => intro gs cur; rfl
  | cons p rest ih =>
    intro gs cur
    by_cases h : |p - listMean cur| ≤ aggrTol P cur
    · simp [aggrScan, gScan, aggrAccept, h, ih]
    · simp [aggrScan, gScan, aggrAccept, h, ih]

theorem gScan_length (a : List ℚ → ℚ → Bool) :
    ∀ (rest : List ℚ) (gs : List (List ℚ)) (cur : List ℚ),
      (gScan a gs cur rest).length = gs.length + (gScan a [] cur rest).length := by
  intro rest
  induction rest with
  | nil => intro gs cur; simp [gScan]
  | cons p rest ih =>
    intro gs cur
    by_cases h : a cur p = true
    · simp only [gScan, h, if_true]
      rw [ih gs (cur ++ [p]), ih [] (cur ++ [p])]
    · simp only [gScan, h, if_false, Bool.false_eq_true]
      rw [ih (gs ++ [cur]) [p], ih ([] ++ [cur]) [p]]
      simp
      omega

theorem gScan_groups_ne_nil (a : List ℚ → ℚ → Bool) :
    ∀ (rest : List ℚ) (gs : List (List ℚ)) (cur : List ℚ),
      (∀ g ∈ gs, g ≠ []) → cur ≠ [] →
      ∀ g ∈ gScan a gs cur rest, g ≠ [] := by
  intro rest
  induction rest with
  | nil =>
    intro gs cur hgs hcur g hg
    simp only [gScan, List.mem_append, List.mem_singleton] at hg
    rcases hg with hg | hg
    · exact hgs g hg
    · rw [hg]; exact hcur
  | cons p rest ih =>
    intro gs cur hgs hcur g hg
    by_cases h : a cur p = true
    · rw [gScan, if_pos h] at hg
      exact ih gs (cur ++ [p]) hgs (by simp) g hg
    · rw [gScan, if_neg (by simp [h])] at hg
      refine ih (gs ++ [cur]) [p] ?_ (by simp) g hg
      intro g2 hg2
      rcases List.mem_append.mp hg2 with h2 | h2
      · exact hgs g2 h2
      · rw [List.mem_singleton.mp h2]; exact hcur

theorem convertGroupsToLevels_length (P : SRParams) (lt : LevelType)
    (tf : String) (w : Nat) (groups : List (List ℚ))
    (h : ∀ g ∈ groups, g ≠ []) :
    (convertGroupsToLevels P groups lt tf w).length = groups.length := by
  unfold convertGroupsToLevels
  rw [List.length_map, List.filter_eq_self.mpr]
  intro g hg
  have := List.length_pos.mpr (h g hg)
  simp
  omega

theorem getLastD_append_of_ne_nil {c2 : List ℚ} (pre : List ℚ) (h : c2 ≠ []) :
    (pre ++ c2).getLastD 0 = c2.getLastD 0 := by
  cases c2 with
  | nil => exact absurd rfl h
  | cons x t =>
    simp only [List.getLastD_eq_getLast?, List.getLast?_append]
    rw [List.getLast?_eq_getLast (x :: t) (by simp)]
    rfl

theorem getLastD_mem {c : List ℚ} (h : c ≠ []) : c.getLastD 0 ∈ c := by
  cases c with
  | nil => exact absurd rfl h
  | cons x t =>
    rw [List.getLastD_eq_getLast?, List.getLast?_eq_getLast _ (by simp)]
    simp only [Option.getD_some]
    exact List.getLast_mem _

theorem le_getLastD_of_sorted {c : List ℚ} {x : ℚ} (hs : List.Sorted (· ≤ ·) c)
    (hx : x ∈ c) : x ≤ c.getLastD 0 := by
  induction c with
  | nil => cases hx
  | cons y t ih =>
    rcases List.mem_cons.mp hx with rfl | hxt
    · cases t with
      | nil => simp
      | cons z t2 =>
        have hz : x ≤ (z :: t2).getLastD 0 := by
          have hmem := getLastD_mem (c := z :: t2) (by simp)
          exact (List.pairwise_cons.mp hs).1 _ hmem
        simpa using hz
    · have ht : List.Sorted (· ≤ ·) t := (List.pairwise_cons.mp hs).2
      have := ih ht hxt
      cases t with
      | nil => cases hxt
      | cons z t2 => simpa using this

theorem minAbsDist_sorted {q : ℚ} :
    ∀ {c : List ℚ}, c ≠ [] → List.Sorted (· ≤ ·) (c ++ [q]) →
      minAbsDist q c = q - c.getLastD 0 := by
  intro c
  induction c with
  | nil => intro h; exact absurd rfl h
  | cons x t ih =>
    intro _ hs
    cases t with
    | nil =>
      have hxq : x ≤ q := by
        have := (List.pairwise_cons.mp hs).1 q (by simp)
        exact this
      simp [minAbsDist, abs_of_nonneg (sub_nonneg.mpr hxq)]
    | cons y t2 =>
      have hs2 : List.Sorted (· ≤ ·) ((y :: t2) ++ [q]) :=
        (List.pairwise_cons.mp hs).2
      have hrec := ih (by simp) hs2
      have hxq : x ≤ q := (List.pairwise_cons.mp hs).1 q (by simp)
      have hxlast : x ≤ (y :: t2).getLastD 0 := by
        have hmem : (y :: t2).getLastD 0 ∈ y :: t2 := getLastD_mem (by simp)
        refine (List.pairwise_cons.mp hs).1 _ ?_
        rcases List.mem_cons.mp hmem with heq | hm
        · rw [heq]; exact List.mem_cons_self _ _
        · exact List.mem_cons_of_mem _ (List.mem_append_left _ hm)
      show min |q - x| (minAbsDist q (y :: t2)) = q - (x :: y :: t2).getLastD 0
      rw [hrec, abs_of_nonneg (sub_nonneg.mpr hxq)]
      have : (x :: y :: t2).getLastD 0 = (y :: t2).getLastD 0 := by simp
      rw [this, min_eq_right (by linarith)]

theorem listMean_le_of_forall_le {c : List ℚ} {b : ℚ} (hne : c ≠ [])
    (h : ∀ x ∈ c, x ≤ b) : listMean c ≤ b := by
  have hsum : c.sum ≤ c.length • b := List.sum_le_card_nsmul c b h
  have hlen : (0 : ℚ) < c.length := by
    exact_mod_cast List.length_pos.mpr hne
  rw [listMean, div_le_iff₀ hlen]
  rw [nsmul_eq_mul] at hsum
  linarith

theorem forall_le_listMean {c : List ℚ} {b : ℚ} (hne : c ≠ [])
    (h : ∀ x ∈ c, b ≤ x) : b ≤ listMean c := by
  have hsum : c.length • b ≤ c.sum := List.card_nsmul_le_sum c b h
  have hlen : (0 : ℚ) < c.length := by
    exact_mod_cast List.length_pos.mpr hne
  rw [listMean, le_div_iff₀ hlen]
  rw [nsmul_eq_mul] at hsum
  linarith

theorem listMean_append_le {pre c2 : List ℚ} (hne : c2 ≠ [])
    (hs : List.Sorted (· ≤ ·) (pre ++ c2)) :
    listMean (pre ++ c2) ≤ listMean c2 := by
  cases hpre : pre with
  | nil => simp
  | cons p0 pt =>
    rw [← hpre]
    have hcross : ∀ x ∈ pre, ∀ y ∈ c2, x ≤ y := fun x hx y hy =>
      (List.pairwise_append.mp hs).2.2 x hx y hy
    have hm : ∀ x ∈ pre, x ≤ listMean c2 := fun x hx =>
      forall_le_listMean hne (fun y hy => hcross x hx y hy)
    have hS1 : pre.sum ≤ pre.length • listMean c2 :=
      List.sum_le_card_nsmul pre (listMean c2) hm
    have hn2 : (0 : ℚ) < c2.length := by
      exact_mod_cast List.length_pos.mpr hne
    have hS2 : c2.sum = (c2.length : ℚ) * listMean c2 := by
      rw [listMean, mul_div_cancel₀]
      exact ne_of_gt hn2
    have hlen : (0 : ℚ) < ((pre ++ c2).length : ℚ) := by
      have : c2.length ≤ (pre ++ c2).length := by simp
      have h2 := List.length_pos.mpr hne
      exact_mod_cast Nat.lt_of_lt_of_le h2 this
    rw [listMean, div_le_iff₀ hlen]
    rw [nsmul_eq_mul] at hS1
    rw [List.sum_append, List.length_append]
    push_cast
    nlinarith [hS1, hS2]

theorem sorted_suffix_append {B rest : List ℚ} (pre : List ℚ)
    (h : List.Sorted (· ≤ ·) ((pre ++ B) ++ rest)) :
    List.Sorted (· ≤ ·) (B ++ rest) := by
  refine List.Pairwise.sublist ?_ h
  rw [List.append_assoc]
  exact List.sublist_append_right pre (B ++ rest)

theorem sorted_head_tail {A rest : List ℚ} (q : ℚ)
    (h : List.Sorted (· ≤ ·) (A ++ (q :: rest))) :
    List.Sorted (· ≤ ·) ([q] ++ rest) := by
  have : List.Sorted (· ≤ ·) (q :: rest) :=
    List.Pairwise.sublist (List.sublist_append_right A (q :: rest)) h
  simpa using this

theorem sorted_push {A rest : List ℚ} (q : ℚ)
    (h : List.Sorted (· ≤ ·) (A ++ (q :: rest))) :
    List.Sorted (· ≤ ·) ((A ++ [q]) ++ rest) := by
  simpa [List.append_assoc] using h

theorem sorted_take_head {A rest : List ℚ} (q : ℚ)
    (h : List.Sorted (· ≤ ·) (A ++ (q :: rest))) :
    List.Sorted (· ≤ ·) (A ++ [q]) := by
  refine List.Pairwise.sublist ?_ h
  refine List.Sublist.append (List.Sublist.refl A) ?_
  exact List.cons_sublist_cons.mpr (List.nil_sublist rest)

theorem gScan_count_le (a1 a2 : List ℚ → ℚ → Bool)
    (H : ∀ (pre c2 : List ℚ) (q : ℚ), c2 ≠ [] →
      List.Sorted (· ≤ ·) ((pre ++ c2) ++ [q]) →
      a1 (pre ++ c2) q = true → a2 c2 q = true) :
    ∀ (rest cur1 cur2 : List ℚ) (k : Nat),
      ((k = 0 ∧ ∃ pre, cur1 = pre ++ cur2 ∧ cur2 ≠ [] ∧
          List.Sorted (· ≤ ·) (cur1 ++ rest)) ∨
       (k = 1 ∧ ∃ pre, cur2 = pre ++ cur1 ∧ cur1 ≠ [] ∧
          List.Sorted (· ≤ ·) (cur2 ++ rest))) →
      (gScan a2 [] cur2 rest).length ≤ k + (gScan a1 [] cur1 rest).length := by
  intro rest
  induction rest with
  | nil =>
    intro cur1 cur2 k hinv
    simp [gScan]
  | cons q rest2 ih =>
    intro cur1 cur2 k hinv
    rcases hinv with ⟨hk, pre, hpre, hne2, hs⟩ | ⟨hk, pre, hpre, hne1, hs⟩
    · subst hk
      subst hpre
      by_cases h1 : a1 (pre ++ cur2) q = true
      · have h2 : a2 cur2 q = true :=
          H pre cur2 q hne2 (sorted_take_head q hs) h1
        rw [gScan, if_pos h2, gScan, if_pos h1]
        refine ih ((pre ++ cur2) ++ [q]) (cur2 ++ [q]) 0 (Or.inl ⟨rfl, pre, ?_, ?_, ?_⟩)
        · rw [List.append_assoc]
        · simp
        · exact sorted_push q hs
      · by_cases h2 : a2 cur2 q = true
        · rw [gScan, if_pos h2, gScan, if_neg h1]
          rw [gScan_length a1 rest2 ([] ++ [pre ++ cur2]) [q]]
          have hrec := ih [q] (cur2 ++ [q]) 1
            (Or.inr ⟨rfl, cur2, rfl, by simp, sorted_push q (sorted_suffix_append pre hs)⟩)
          simp only [List.length_append, List.length_singleton, List.length_nil] at *
          omega
        · rw [gScan, if_neg h2, gScan, if_neg h1]
          rw [gScan_length a1 rest2 ([] ++ [pre ++ cur2]) [q],
            gScan_length a2 rest2 ([] ++ [cur2]) [q]]
          have hrec := ih [q] [q] 0
            (Or.inl ⟨rfl, [], rfl, by simp, sorted_head_tail q hs⟩)
          simp only [List.length_append, List.length_singleton, List.length_nil] at *
          omega
    · subst hk
      subst hpre
      by_cases h2 : a2 (pre ++ cur1) q = true
      · by_cases h1 : a1 cur1 q = true
        · rw [gScan, if_pos h2, gScan, if_pos h1]
          refine ih (cur1 ++ [q]) ((pre ++ cur1) ++ [q]) 1 (Or.inr ⟨rfl, pre, ?_, ?_, ?_⟩)
          · rw [List.append_assoc]
          · simp
          · exact sorted_push q hs
        · rw [gScan, if_pos h2, gScan, if_neg h1]
          rw [gScan_length a1 rest2 ([] ++ [cur1]) [q]]
          have hrec := ih [q] ((pre ++ cur1) ++ [q]) 1
            (Or.inr ⟨rfl, pre ++ cur1, rfl, by simp, sorted_push q hs⟩)
          simp only [List.length_append, List.length_singleton, List.length_nil] at *
          omega
      · by_cases h1 : a1 cur1 q = true
        · rw [gScan, if_neg h2, gScan, if_pos h1]
          rw [gScan_length a2 rest2 ([] ++ [pre ++ cur1]) [q]]
          have hrec := ih (cur1 ++ [q]) [q] 0
            (Or.inl ⟨rfl, cur1, rfl, by simp,
              sorted_push q (sorted_suffix_append pre hs)⟩)
          simp only [List.length_append, List.length_singleton, List.length_nil] at *
          omega
        · rw [gScan, if_neg h2, gScan, if_neg h1]
          rw [gScan_length a1 rest2 ([] ++ [cur1]) [q],
            gScan_length a2 rest2 ([] ++ [pre ++ cur1]) [q]]
          have hrec := ih [q] [q] 0
            (Or.inl ⟨rfl, [], rfl, by simp, sorted_head_tail q hs⟩)
          simp only [List.length_append, List.length_singleton, List.length_nil] at *
          omega

theorem sorted_drop_last {A : List ℚ} {q : ℚ}
    (hs : List.Sorted (· ≤ ·) (A ++ [q])) : List.Sorted (· ≤ ·) A :=
  List.Pairwise.sublist (List.sublist_append_left A [q]) hs

theorem all_le_last {A : List ℚ} {q : ℚ}
    (hs : List.Sorted (· ≤ ·) (A ++ [q])) : ∀ x ∈ A, x ≤ q := by
  intro x hx
  exact (List.pairwise_append.mp hs).2.2 x hx q (by simp)

theorem consAccept_mono (mt : Int) (gm : GroupingMethod) (tm : ToleranceMode)
    (cp p1 p2 : ℚ) (hp1 : 0 < p1) (h12 : p1 ≤ p2) (pre c2 : List ℚ) (q : ℚ)
    (hne : c2 ≠ []) (hs : List.Sorted (· ≤ ·) ((pre ++ c2) ++ [q]))
    (h1 : consAccept (finderParams mt p1 gm tm cp) (pre ++ c2) q = true) :
    consAccept (finderParams mt p2 gm tm cp) c2 q = true := by
  rw [consAccept, decide_eq_true_eq] at h1
  rw [consAccept, decide_eq_true_eq]
  have hne1 : pre ++ c2 ≠ [] := by
    intro h
    exact hne (List.append_eq_nil.mp h).2
  have hd1 : minAbsDist q (pre ++ c2) = q - (pre ++ c2).getLastD 0 :=
    minAbsDist_sorted hne1 hs
  have hs2 : List.Sorted (· ≤ ·) (c2 ++ [q]) := sorted_suffix_append pre hs
  have hd2 : minAbsDist q c2 = q - c2.getLastD 0 := minAbsDist_sorted hne hs2
  have hlast : (pre ++ c2).getLastD 0 = c2.getLastD 0 :=
    getLastD_append_of_ne_nil pre hne
  have hLq : c2.getLastD 0 ≤ q := all_le_last hs2 _ (getLastD_mem hne)
  have hd_nonneg : 0 ≤ q - c2.getLastD 0 := sub_nonneg.mpr hLq
  rw [hd1, hlast] at h1
  rw [hd2]
  have hk1 : (0 : ℚ) < p1 / 100 := by positivity
  have hk12 : p1 / 100 ≤ p2 / 100 := by linarith
  cases tm with
  | currentPrice =>
    have e1 : consTol (finderParams mt p1 gm ToleranceMode.currentPrice cp)
        (pre ++ c2) = cp * (p1 / 100) := rfl
    have e2 : consTol (finderParams mt p2 gm ToleranceMode.currentPrice cp) c2 =
        cp * (p2 / 100) := rfl
    rw [e1] at h1
    rw [e2]
    have h0 : 0 ≤ cp * (p1 / 100) := le_trans hd_nonneg h1
    have hcp : 0 ≤ cp := by
      by_contra hneg
      push_neg at hneg
      nlinarith
    nlinarith
  | levelPrice =>
    have e1 : consTol (finderParams mt p1 gm ToleranceMode.levelPrice cp)
        (pre ++ c2) = listMean (pre ++ c2) * (p1 / 100) := rfl
    have e2 : consTol (finderParams mt p2 gm ToleranceMode.levelPrice cp) c2 =
        listMean c2 * (p2 / 100) := rfl
    rw [e1] at h1
    rw [e2]
    have hm12 : listMean (pre ++ c2) ≤ listMean c2 :=
      listMean_append_le hne (sorted_drop_last hs)
    have hm1 : 0 ≤ listMean (pre ++ c2) := by
      by_contra hneg
      push_neg at hneg
      nlinarith
    nlinarith

theorem aggrAccept_mono (mt : Int) (gm : GroupingMethod) (tm : ToleranceMode)
    (cp p1 p2 : ℚ) (hp1 : 0 < p1) (h12 : p1 ≤ p2) (pre c2 : List ℚ) (q : ℚ)
    (hne : c2 ≠ []) (hs : List.Sorted (· ≤ ·) ((pre ++ c2) ++ [q]))
    (h1 : aggrAccept (finderParams mt p1 gm tm cp) (pre ++ c2) q = true) :
    aggrAccept (finderParams mt p2 gm tm cp) c2 q = true := by
  rw [aggrAccept, decide_eq_true_eq] at h1
  rw [aggrAccept, decide_eq_true_eq]
  have hne1 : pre ++ c2 ≠ [] := by
    intro h
    exact hne (List.append_eq_nil.mp h).2
  have hs2 : List.Sorted (· ≤ ·) (c2 ++ [q]) := sorted_suffix_append pre hs
  have hm1q : listMean (pre ++ c2) ≤ q :=
    listMean_le_of_forall_le hne1 (all_le_last hs)
  have hm2q : listMean c2 ≤ q :=
    listMean_le_of_forall_le hne (all_le_last hs2)
  have hm12 : listMean (pre ++ c2) ≤ listMean c2 :=
    listMean_append_le hne (sorted_drop_last hs)
  rw [abs_of_nonneg (sub_nonneg.mpr hm1q)] at h1
  rw [abs_of_nonneg (sub_nonneg.mpr hm2q)]
  have hk1 : (0 : ℚ) < p1 / 100 := by positivity
  have hk12 : p1 / 100 ≤ p2 / 100 := by linarith
  cases tm with
  | currentPrice =>
    have e1 : aggrTol (finderParams mt p1 gm ToleranceMode.currentPrice cp)
        (pre ++ c2) = cp * (p1 / 100) := rfl
    have e2 : aggrTol (finderParams mt p2 gm ToleranceMode.currentPrice cp) c2 =
        cp * (p2 / 100) := rfl
    rw [e1] at h1
    rw [e2]
    have h0 : 0 ≤ cp * (p1 / 100) := by nlinarith
    have hcp : 0 ≤ cp := by
      by_contra hneg
      push_neg at hneg
      nlinarith
    nlinarith
  | levelPrice =>
    have e1 : aggrTol (finderParams mt p1 gm ToleranceMode.levelPrice cp)
        (pre ++ c2) = listMean (pre ++ c2) * (p1 / 100) := rfl
    have e2 : aggrTol (finderParams mt p2 gm ToleranceMode.levelPrice cp) c2 =
        listMean c2 * (p2 / 100) := rfl
    rw [e1] at h1
    rw [e2]
    have hm1 : 0 ≤ listMean (pre ++ c2) := by
      by_contra hneg
      push_neg at hneg
      nlinarith
    nlinarith

theorem cons_count_le (P1 P2 : SRParams)
    (H : ∀ (pre c2 : List ℚ) (q : ℚ), c2 ≠ [] →
      List.Sorted (· ≤ ·) ((pre ++ c2) ++ [q]) →
      consAccept P1 (pre ++ c2) q = true → consAccept P2 c2 q = true)
    (prices : List (Option ℚ)) (lt : LevelType) (tf : String) (w : Nat) :
    (groupPricesConservative P2 prices lt tf w).length ≤
      (groupPricesConservative P1 prices lt tf w).length := by
  unfold groupPricesConservative
  cases prices with
  | nil => simp
  | cons o ps =>
    dsimp only []
    cases hsort : List.insertionSort (· ≤ ·) ((o :: ps).filterMap id) with
    | nil => simp
    | cons x rest =>
      dsimp only []
      have hsorted : List.Sorted (· ≤ ·) (x :: rest) := by
        rw [← hsort]
        exact List.sorted_insertionSort (· ≤ ·) _
      have hne1 : ∀ g ∈ consScan P1 [] [x] rest, g ≠ [] := by
        rw [consScan_eq_gScan]
        exact gScan_groups_ne_nil (consAccept P1) rest [] [x] (by simp) (by simp)
      have hne2 : ∀ g ∈ consScan P2 [] [x] rest, g ≠ [] := by
        rw [consScan_eq_gScan]
        exact gScan_groups_ne_nil (consAccept P2) rest [] [x] (by simp) (by simp)
      rw [convertGroupsToLevels_length _ _ _ _ _ hne2,
        convertGroupsToLevels_length _ _ _ _ _ hne1]
      rw [consScan_eq_gScan, consScan_eq_gScan]
      have := gScan_count_le (consAccept P1) (consAccept P2) H rest [x] [x] 0
        (Or.inl ⟨rfl, [], rfl, by simp, by simpa using hsorted⟩)
      omega

theorem aggr_count_le (P1 P2 : SRParams)
    (H : ∀ (pre c2 : List ℚ) (q : ℚ), c2 ≠ [] →
      List.Sorted (· ≤ ·) ((pre ++ c2) ++ [q]) →
      aggrAccept P1 (pre ++ c2) q = true → aggrAccept P2 c2 q = true)
    (prices : List (Option ℚ)) (lt : LevelType) (tf : String) (w : Nat) :
    (groupPricesAggressive P2 prices lt tf w).length ≤
      (groupPricesAggressive P1 prices lt tf w).length := by
  unfold groupPricesAggressive
  cases prices with
  | nil => simp
  | cons o ps =>
    dsimp only []
    cases hsort : List.insertionSort (· ≤ ·) ((o :: ps).filterMap id) with
    | nil => simp
    | cons x rest =>
      dsimp only []
      have hsorted : List.Sorted (· ≤ ·) (x :: rest) := by
        rw [← hsort]
        exact List.sorted_insertionSort (· ≤ ·) _
      have hne1 : ∀ g ∈ aggrScan P1 [] [x] rest, g ≠ [] := by
        rw [aggrScan_eq_gScan]
        exact gScan_groups_ne_nil (aggrAccept P1) rest [] [x] (by simp) (by simp)
      have hne2 : ∀ g ∈ aggrScan P2 [] [x] rest, g ≠ [] := by
        rw [aggrScan_eq_gScan]
        exact gScan_groups_ne_nil (aggrAccept P2) rest [] [x] (by simp) (by simp)
      rw [convertGroupsToLevels_length _ _ _ _ _ hne2,
        convertGroupsToLevels_length _ _ _ _ _ hne1]
      rw [aggrScan_eq_gScan, aggrScan_eq_gScan]
      have := gScan_count_le (aggrAccept P1) (aggrAccept P2) H rest [x] [x] 0
        (Or.inl ⟨rfl, [], rfl, by simp, by simpa using hsorted⟩)
      omega

/-- C4: for a fixed input price list, level kind, grouping strategy and
tolerance mode (and the fixed current price the base tolerance is derived
from), raising the tolerance percentage never increases the number of
emitted clusters. -/
theorem tolerance_monotone_cluster_count (prices : List (Option ℚ))
    (lt : LevelType) (tf : String) (w : Nat) (mt : Int) (gm : GroupingMethod)
    (tm : ToleranceMode) (cp p1 p2 : ℚ) (hp1 : 0 < p1) (h12 : p1 ≤ p2) :
    (groupPricesFor (finderParams mt p2 gm tm cp) prices lt tf w).length ≤
      (groupPricesFor (finderParams mt p1 gm tm cp) prices lt tf w).length := by
  unfold groupPricesFor
  cases gm with
  | conservative =>
    dsimp only [finderParams]
    exact cons_count_le (finderParams mt p1 GroupingMethod.conservative tm cp)
      (finderParams mt p2 GroupingMethod.conservative tm cp)
      (fun pre c2 q hne hs h1 =>
        consAccept_mono mt GroupingMethod.conservative tm cp p1 p2 hp1 h12
          pre c2 q hne hs h1)
      prices lt tf w
  | aggressive =>
    dsimp only [finderParams]
    exact aggr_count_le (finderParams mt p1 GroupingMethod.aggressive tm cp)
      (finderParams mt p2 GroupingMethod.aggressive tm cp)
      (fun pre c2 q hne hs h1 =>
        aggrAccept_mono mt GroupingMethod.aggressive tm cp p1 p2 hp1 h12
          pre c2 q hne hs h1)
      prices lt tf w

unseal Rat.add Rat.mul Rat.inv Rat.sub Rat.ofScientific in
theorem tolerance_monotone_cluster_count_witness :
    0 < (1 : ℚ) ∧ (1 : ℚ) ≤ 2 ∧
      (groupPricesFor (finderParams 2 2 GroupingMethod.conservative
          ToleranceMode.currentPrice 10) [some 1, some 2] LevelType.Support "1D" 1).length ≤
        (groupPricesFor (finderParams 2 1 GroupingMethod.conservative
          ToleranceMode.currentPrice 10) [some 1, some 2] LevelType.Support "1D" 1).length :=
  ⟨by norm_num, by norm_num,
   tolerance_monotone_cluster_count [some 1, some 2] LevelType.Support "1D" 1 2
     GroupingMethod.conservative ToleranceMode.currentPrice 10 1 2
     (by norm_num) (by norm_num)⟩
